import Mathlib

/-!
Verification of `mir_states/common/perception_states.py`.

The file shallowly embeds the perception-acquisition steps of the module:

* `find_objects.execute` (retry controller around a trigger-await cycle),
* `do_visual_servoing.execute` (status-code classifier),
* `find_cavities.execute` (per-subject trigger-await cycles followed by the
  candidate fusion merge into `userdata.found_cavities`).

Scores (`template_matching_error.matching_error`) are modelled as rationals;
poses and frame transforms are omitted: the transform block
(`perception_states.py` lines 171-177) only rewrites the `pose` field of a
cavity via an external tf service and never adds or drops a cavity, and no
claim mentions poses.
-/

namespace PerceptionStates

/-- Model of `mcr_perception_msgs.msg.Cavity` as used by `find_cavities`:
only the fields the code reads (`object_name`,
`template_matching_error.matching_error`) are kept. -/
structure Cavity where
  object_name : String
  matching_error : ℚ
  deriving DecidableEq, Repr

/-- One pass of the inner merge loop of `find_cavities.execute`
(lines 179-190): given the running result set `fc` (`userdata.found_cavities`)
and one incoming cavity `cav`, scan `fc` for entries with the same
`object_name`; each such entry is replaced in place by `cav` when
`cav.matching_error` is strictly lower (lines 181-186).  If no entry matched
(`exists == False`), `cav` is appended iff its matching error is strictly
below the matching threshold (lines 188-190). -/
def mergeOne (thr : ℚ) (fc : List Cavity) (cav : Cavity) : List Cavity :=
  if ∃ c ∈ fc, cav.object_name = c.object_name then
    fc.map (fun c =>
      if cav.object_name = c.object_name ∧ cav.matching_error < c.matching_error
      then cav else c)
  else if cav.matching_error < thr then
    fc ++ [cav]
  else
    fc

/-- The full merge loop of `find_cavities.execute` (lines 179-190): the
incoming batch `local_found_cavities` is folded into `userdata.found_cavities`
one candidate at a time, in order. -/
def merge (thr : ℚ) (fc : List Cavity) (incoming : List Cavity) : List Cavity :=
  incoming.foldl (mergeOne thr) fc

/-- The matching threshold set in `find_cavities.__init__` (line 144). -/
def matching_threshold : ℚ := 1/10

/-- Names of the entries of a result set are pairwise distinct. -/
def UniqueNames (fc : List Cavity) : Prop :=
  fc.Pairwise (fun a b => a.object_name ≠ b.object_name)

instance : DecidablePred UniqueNames := fun fc =>
  inferInstanceAs (Decidable (fc.Pairwise _))

theorem uniqueNames_getElem_ne {fc : List Cavity} (hu : UniqueNames fc)
    {i j : ℕ} (hi : i < fc.length) (hj : j < fc.length) (hij : i ≠ j) :
    fc[i].object_name ≠ fc[j].object_name := by
  have h := List.pairwise_iff_getElem.mp hu
  rcases Nat.lt_or_ge i j with hlt | hge
  · exact h i j hi hj hlt
  · exact (h j i hj hi (lt_of_le_of_ne hge (Ne.symm hij))).symm

theorem uniqueNames_mem_eq {fc : List Cavity} (hu : UniqueNames fc)
    {i : ℕ} (hi : i < fc.length) {c : Cavity} (hc : c ∈ fc)
    (hname : c.object_name = fc[i].object_name) : c = fc[i] := by
  rcases List.mem_iff_getElem.mp hc with ⟨j, hj, rfl⟩
  by_cases hij : j = i
  · subst hij; rfl
  · exact absurd hname (uniqueNames_getElem_ne hu hj hi hij)

theorem mergeOne_found_eq (thr : ℚ) (fc : List Cavity) (cav : Cavity)
    (i : ℕ) (hi : i < fc.length) (hu : UniqueNames fc)
    (hn : fc[i].object_name = cav.object_name) :
    mergeOne thr fc cav =
      if cav.matching_error < fc[i].matching_error then fc.set i cav else fc := by
  have hmem : fc[i] ∈ fc := List.getElem_mem hi
  have hex : ∃ c ∈ fc, cav.object_name = c.object_name := ⟨fc[i], hmem, hn.symm⟩
  by_cases hlt : cav.matching_error < fc[i].matching_error
  · rw [if_pos hlt]
    unfold mergeOne
    rw [if_pos hex]
    apply List.ext_getElem
    · simp
    · intro j h1 h2
      simp only [List.getElem_map]
      rw [List.getElem_set]
      by_cases hij : i = j
      · subst hij
        rw [if_pos rfl, if_pos ⟨hn.symm, hlt⟩]
      · rw [if_neg hij, if_neg]
        rintro ⟨hname, -⟩
        have hj : j < fc.length := by simpa using h1
        exact uniqueNames_getElem_ne hu hi hj hij (hn.trans hname)
  · rw [if_neg hlt]
    unfold mergeOne
    rw [if_pos hex]
    have : ∀ c ∈ fc,
        (if cav.object_name = c.object_name ∧
            cav.matching_error < c.matching_error then cav else c) = id c := by
      intro c hc
      rw [if_neg, id]
      rintro ⟨hname, hlt2⟩
      have hceq : c = fc[i] := uniqueNames_mem_eq hu hi hc (hname.symm.trans hn.symm)
      exact hlt (hceq ▸ hlt2)
    rw [List.map_congr_left this, List.map_id]

theorem mergeOne_not_found_eq (thr : ℚ) (fc : List Cavity) (cav : Cavity)
    (hnone : ∀ c ∈ fc, cav.object_name ≠ c.object_name) :
    mergeOne thr fc cav =
      if cav.matching_error < thr then fc ++ [cav] else fc := by
  have hex : ¬ ∃ c ∈ fc, cav.object_name = c.object_name := by
    rintro ⟨c, hc, hname⟩
    exact hnone c hc hname
  unfold mergeOne
  rw [if_neg hex]

/-- C1.  Candidate Fusion Engine replace-if-better (`find_cavities.execute`
lines 179-190): if the existing result set `fc` has unique names and holds an
entry with the incoming candidate's `object_name` at position `i`, then when
the incoming matching error is strictly lower the entry is replaced in place
at position `i`, and otherwise the result set is left unchanged (the incoming
candidate is discarded). -/
theorem fusion_replace_if_better (thr : ℚ) (fc : List Cavity) (cav : Cavity)
    (i : ℕ) (hi : i < fc.length) (hu : UniqueNames fc)
    (hn : fc[i].object_name = cav.object_name) :
    (cav.matching_error < fc[i].matching_error →
        mergeOne thr fc cav = fc.set i cav) ∧
    (¬ cav.matching_error < fc[i].matching_error →
        mergeOne thr fc cav = fc) := by
  have h := mergeOne_found_eq thr fc cav i hi hu hn
  constructor
  · intro hlt; rwa [if_pos hlt] at h
  · intro hge; rwa [if_neg hge] at h

/-- Closed instance of C1 at the spec's two scenarios: an existing entry for
"A" with error 8/100 is replaced by an incoming candidate with error 3/100,
and an existing entry with error 3/100 is kept against an incoming candidate
with error 8/100. -/
theorem fusion_replace_if_better_witness :
    mergeOne matching_threshold [⟨"A", 8/100⟩] ⟨"A", 3/100⟩ = [⟨"A", 3/100⟩] ∧
    mergeOne matching_threshold [⟨"A", 3/100⟩] ⟨"A", 8/100⟩ = [⟨"A", 3/100⟩] := by
  constructor
  · have h := (fusion_replace_if_better matching_threshold [⟨"A", 8/100⟩]
      ⟨"A", 3/100⟩ 0 (by decide) (by decide) (by decide)).1 (by norm_num)
    simpa using h
  · have h := (fusion_replace_if_better matching_threshold [⟨"A", 3/100⟩]
      ⟨"A", 8/100⟩ 0 (by decide) (by decide) (by decide)).2 (by norm_num)
    simpa using h

/-- C2.  Candidate Fusion Engine threshold acceptance (`find_cavities.execute`
lines 188-190): if no entry of the existing result set carries the incoming
candidate's `object_name`, the candidate is appended exactly when its matching
error is strictly below the threshold, and otherwise the result set is left
unchanged. -/
theorem fusion_threshold_accept (thr : ℚ) (fc : List Cavity) (cav : Cavity)
    (hnone : ∀ c ∈ fc, cav.object_name ≠ c.object_name) :
    (cav.matching_error < thr → mergeOne thr fc cav = fc ++ [cav]) ∧
    (¬ cav.matching_error < thr → mergeOne thr fc cav = fc) := by
  have h := mergeOne_not_found_eq thr fc cav hnone
  constructor
  · intro hlt; rwa [if_pos hlt] at h
  · intro hge; rwa [if_neg hge] at h

/-- Closed instance of C2 at the spec's scenario: with an empty existing set
and threshold 1/10, an incoming candidate for "A" with error 2/10 is rejected,
while one with error 3/100 is appended. -/
theorem fusion_threshold_accept_witness :
    mergeOne matching_threshold [] ⟨"A", 2/10⟩ = [] ∧
    mergeOne matching_threshold [] ⟨"A", 3/100⟩ = [⟨"A", 3/100⟩] := by
  constructor
  · exact (fusion_threshold_accept matching_threshold [] ⟨"A", 2/10⟩
      (by simp)).2 (by norm_num [matching_threshold])
  · exact (fusion_threshold_accept matching_threshold [] ⟨"A", 3/100⟩
      (by simp)).1 (by norm_num [matching_threshold])

/-- ResultSet invariant of the data model, stated relative to the list `obs`
of all candidates ever observed for this result set: the result set `fc`
holds at most one entry per `object_name`; each entry is an observation of
its own identity whose matching error is strictly below the threshold and is
minimal among all such below-threshold observations of that identity; and
every identity with at least one below-threshold observation has an entry. -/
def ResultSetInv (thr : ℚ) (obs fc : List Cavity) : Prop :=
  UniqueNames fc ∧
  (∀ e ∈ fc,
      (∃ c ∈ obs, c.object_name = e.object_name ∧
          c.matching_error = e.matching_error ∧ c.matching_error < thr) ∧
      (∀ c ∈ obs, c.object_name = e.object_name → c.matching_error < thr →
          e.matching_error ≤ c.matching_error)) ∧
  (∀ c ∈ obs, c.matching_error < thr → ∃ e ∈ fc, e.object_name = c.object_name)

instance resultSetInvDecidable (thr : ℚ) (obs fc : List Cavity) :
    Decidable (ResultSetInv thr obs fc) := by
  unfold ResultSetInv
  exact inferInstance

theorem resultSetInv_mergeOne (thr : ℚ) (obs fc : List Cavity) (cav : Cavity)
    (hinv : ResultSetInv thr obs fc) :
    ResultSetInv thr (obs ++ [cav]) (mergeOne thr fc cav) := by
  obtain ⟨hu, hment, hcomp⟩ := hinv
  unfold mergeOne
  by_cases hex : ∃ c ∈ fc, cav.object_name = c.object_name
  · rw [if_pos hex]
    set f : Cavity → Cavity := fun c =>
      if cav.object_name = c.object_name ∧ cav.matching_error < c.matching_error
      then cav else c with hf
    have fname : ∀ c : Cavity, (f c).object_name = c.object_name := by
      intro c
      by_cases hc : cav.object_name = c.object_name ∧
          cav.matching_error < c.matching_error
      · simp only [hf, if_pos hc]; exact hc.1
      · simp only [hf, if_neg hc]
    refine ⟨?_, ?_, ?_⟩
    · rw [UniqueNames, List.pairwise_map]
      exact hu.imp (fun hab => by simpa [fname] using hab)
    · intro e' he'
      rcases List.mem_map.mp he' with ⟨e, he, rfl⟩
      obtain ⟨⟨w, hw, hwname, hwerr, hwthr⟩, hmin⟩ := hment e he
      have hethr : e.matching_error < thr := hwerr ▸ hwthr
      by_cases hcond : cav.object_name = e.object_name ∧
          cav.matching_error < e.matching_error
      · have hfe : f e = cav := by simp only [hf, if_pos hcond]
        rw [hfe]
        refine ⟨⟨cav, by simp, rfl, rfl, lt_trans hcond.2 hethr⟩, ?_⟩
        intro c hc hname hthr
        rcases List.mem_append.mp hc with hco | hcc
        · exact le_of_lt (lt_of_lt_of_le hcond.2
            (hmin c hco (hname.trans hcond.1) hthr))
        · rw [List.mem_singleton.mp hcc]
      · have hfe : f e = e := by simp only [hf, if_neg hcond]
        rw [hfe]
        refine ⟨⟨w, List.mem_append_left _ hw, hwname, hwerr, hwthr⟩, ?_⟩
        intro c hc hname hthr
        rcases List.mem_append.mp hc with hco | hcc
        · exact hmin c hco hname hthr
        · rw [List.mem_singleton.mp hcc] at hname hthr ⊢
          exact le_of_not_lt (fun hlt => hcond ⟨hname, hlt⟩)
    · intro c hc hthr
      rcases List.mem_append.mp hc with hco | hcc
      · obtain ⟨e, he, hename⟩ := hcomp c hco hthr
        exact ⟨f e, List.mem_map.mpr ⟨e, he, rfl⟩, (fname e).trans hename⟩
      · obtain ⟨c0, hc0, hname0⟩ := hex
        rw [List.mem_singleton.mp hcc]
        exact ⟨f c0, List.mem_map.mpr ⟨c0, hc0, rfl⟩,
          (fname c0).trans hname0.symm⟩
  · rw [if_neg hex]
    by_cases hthr : cav.matching_error < thr
    · rw [if_pos hthr]
      refine ⟨?_, ?_, ?_⟩
      · rw [UniqueNames, List.pairwise_append]
        refine ⟨hu, List.pairwise_singleton _ _, ?_⟩
        intro a ha b hb
        rw [List.mem_singleton.mp hb]
        exact fun hab => hex ⟨a, ha, hab.symm⟩
      · intro e he
        rcases List.mem_append.mp he with hef | hec
        · obtain ⟨⟨w, hw, hwname, hwerr, hwthr⟩, hmin⟩ := hment e hef
          refine ⟨⟨w, List.mem_append_left _ hw, hwname, hwerr, hwthr⟩, ?_⟩
          intro c hc hname hthr2
          rcases List.mem_append.mp hc with hco | hcc
          · exact hmin c hco hname hthr2
          · rw [List.mem_singleton.mp hcc] at hname
            exact absurd ⟨e, hef, hname⟩ hex
        · rw [List.mem_singleton.mp hec]
          refine ⟨⟨cav, by simp, rfl, rfl, hthr⟩, ?_⟩
          intro c hc hname hthr2
          rcases List.mem_append.mp hc with hco | hcc
          · obtain ⟨e0, he0, hename0⟩ := hcomp c hco hthr2
            exact absurd ⟨e0, he0, hename0.symm ▸ hname.symm⟩ hex
          · rw [List.mem_singleton.mp hcc]
      · intro c hc hthr2
        rcases List.mem_append.mp hc with hco | hcc
        · obtain ⟨e, he, hename⟩ := hcomp c hco hthr2
          exact ⟨e, List.mem_append_left _ he, hename⟩
        · rw [List.mem_singleton.mp hcc]
          exact ⟨cav, List.mem_append_right _ (by simp), rfl⟩
    · rw [if_neg hthr]
      refine ⟨hu, ?_, ?_⟩
      · intro e he
        obtain ⟨⟨w, hw, hwname, hwerr, hwthr⟩, hmin⟩ := hment e he
        refine ⟨⟨w, List.mem_append_left _ hw, hwname, hwerr, hwthr⟩, ?_⟩
        intro c hc hname hthr2
        rcases List.mem_append.mp hc with hco | hcc
        · exact hmin c hco hname hthr2
        · rw [List.mem_singleton.mp hcc] at hthr2
          exact absurd hthr2 hthr
      · intro c hc hthr2
        rcases List.mem_append.mp hc with hco | hcc
        · exact hcomp c hco hthr2
        · rw [List.mem_singleton.mp hcc] at hthr2
          exact absurd hthr2 hthr

/-- C3.  The ResultSet invariant is preserved by every merge (the loop at
`find_cavities.execute` lines 179-190): if the existing result set has at
most one entry per identity and each entry is the minimum over all
below-threshold scores observed so far for its identity, then after merging
any incoming batch the result set again has at most one entry per identity
and each entry is the minimum over all below-threshold scores ever observed
for its identity. -/
theorem fusion_invariant_preserved (thr : ℚ) (obs fc incoming : List Cavity)
    (hinv : ResultSetInv thr obs fc) :
    ResultSetInv thr (obs ++ incoming) (merge thr fc incoming) := by
  induction incoming generalizing obs fc with
  | nil => simpa [merge] using hinv
  | cons cav rest ih =>
    have h1 := resultSetInv_mergeOne thr obs fc cav hinv
    have h2 := ih (obs ++ [cav]) (mergeOne thr fc cav) h1
    simpa [merge, List.append_assoc] using h2

/-- Closed instance of C3: with threshold 10 and a prior history producing
the entry A at 8, merging a batch with a better A at 3 and an
above-threshold B at 20 preserves the invariant. -/
theorem fusion_invariant_preserved_witness :
    ResultSetInv 10
      ([⟨"A", 8⟩] ++ [⟨"A", 3⟩, ⟨"B", 20⟩])
      (merge 10 [⟨"A", 8⟩] [⟨"A", 3⟩, ⟨"B", 20⟩]) :=
  fusion_invariant_preserved 10 [⟨"A", 8⟩] [⟨"A", 8⟩]
    [⟨"A", 3⟩, ⟨"B", 20⟩] (by decide)

theorem merge_batches (thr : ℚ) (fc l1 l2 : List Cavity) :
    merge thr fc (l1 ++ l2) = merge thr (merge thr fc l1) l2 := by
  simp [merge, List.foldl_append]

theorem mergeOne_found_last (thr : ℚ) (fc : List Cavity) (e cav : Cavity)
    (hnone : ∀ c ∈ fc, cav.object_name ≠ c.object_name)
    (hn : cav.object_name = e.object_name) :
    mergeOne thr (fc ++ [e]) cav =
      if cav.matching_error < e.matching_error
      then fc ++ [cav] else fc ++ [e] := by
  have hex : ∃ c ∈ fc ++ [e], cav.object_name = c.object_name :=
    ⟨e, List.mem_append_right _ (by simp), hn⟩
  unfold mergeOne
  rw [if_pos hex, List.map_append]
  have h1 : fc.map (fun c =>
      if cav.object_name = c.object_name ∧
          cav.matching_error < c.matching_error then cav else c) = fc := by
    have hid : ∀ c ∈ fc,
        (if cav.object_name = c.object_name ∧
            cav.matching_error < c.matching_error then cav else c) = id c := by
      intro c hc
      rw [if_neg, id]
      rintro ⟨hname2, -⟩
      exact hnone c hc hname2
    rw [List.map_congr_left hid, List.map_id]
  rw [h1]
  simp only [List.map_cons, List.map_nil]
  by_cases hlt : cav.matching_error < e.matching_error
  · rw [if_pos ⟨hn, hlt⟩, if_pos hlt]
  · rw [if_neg (fun hc => hlt hc.2), if_neg hlt]

/-- Counterexample to C4 as stated: with threshold 10 and an empty existing
result set, of the pair A at 20 and A at 30 the strictly lower-scored
candidate (A at 20) does not end up in the result set in either arrival
order — both merges leave the result set empty, because both scores are at
or above the acceptance threshold. -/
theorem fusion_order_independent_counterexample :
    (20 : ℚ) < 30 ∧
    merge 10 [] [⟨"A", 20⟩, ⟨"A", 30⟩] = [] ∧
    merge 10 [] [⟨"A", 30⟩, ⟨"A", 20⟩] = [] := by decide

/-- C4 (amended).  Order independence of fusion (`find_cavities.execute`
lines 179-190): for a pair of candidates with equal `object_name` whose
identity has no entry yet in the result set, provided the lower of the two
scores is strictly below the acceptance threshold, the strictly lower-scored
candidate ends up (appended) in the result set whether the pair arrives in
one batch in either order or in two successive batches in either order;
when the two tie exactly on score, the one that arrived earlier is kept. -/
theorem fusion_order_independent (thr : ℚ) (fc : List Cavity) (c1 c2 : Cavity)
    (hname : c1.object_name = c2.object_name)
    (hnone : ∀ c ∈ fc, c1.object_name ≠ c.object_name)
    (hthr : c1.matching_error < thr) :
    (c1.matching_error < c2.matching_error →
        merge thr fc [c1, c2] = fc ++ [c1] ∧
        merge thr fc [c2, c1] = fc ++ [c1] ∧
        merge thr (merge thr fc [c1]) [c2] = fc ++ [c1] ∧
        merge thr (merge thr fc [c2]) [c1] = fc ++ [c1]) ∧
    (c1.matching_error = c2.matching_error →
        merge thr fc [c1, c2] = fc ++ [c1] ∧
        merge thr fc [c2, c1] = fc ++ [c2]) := by
  have hnone2 : ∀ c ∈ fc, c2.object_name ≠ c.object_name := by
    intro c hc
    rw [← hname]
    exact hnone c hc
  constructor
  · intro hlt
    have e1 : merge thr fc [c1, c2] = fc ++ [c1] := by
      have h0 : merge thr fc [c1, c2] =
          mergeOne thr (mergeOne thr fc c1) c2 := rfl
      rw [h0, mergeOne_not_found_eq thr fc c1 hnone, if_pos hthr,
        mergeOne_found_last thr fc c1 c2 hnone2 hname.symm,
        if_neg (not_lt.mpr (le_of_lt hlt))]
    have e2 : merge thr fc [c2, c1] = fc ++ [c1] := by
      have h0 : merge thr fc [c2, c1] =
          mergeOne thr (mergeOne thr fc c2) c1 := rfl
      rw [h0, mergeOne_not_found_eq thr fc c2 hnone2]
      by_cases h2 : c2.matching_error < thr
      · rw [if_pos h2, mergeOne_found_last thr fc c2 c1 hnone hname,
          if_pos hlt]
      · rw [if_neg h2, mergeOne_not_found_eq thr fc c1 hnone, if_pos hthr]
    exact ⟨e1, e2, e1, e2⟩
  · intro heq
    have e3 : merge thr fc [c1, c2] = fc ++ [c1] := by
      have h0 : merge thr fc [c1, c2] =
          mergeOne thr (mergeOne thr fc c1) c2 := rfl
      rw [h0, mergeOne_not_found_eq thr fc c1 hnone, if_pos hthr,
        mergeOne_found_last thr fc c1 c2 hnone2 hname.symm, if_neg]
      rw [← heq]
      exact lt_irrefl _
    have e4 : merge thr fc [c2, c1] = fc ++ [c2] := by
      have h0 : merge thr fc [c2, c1] =
          mergeOne thr (mergeOne thr fc c2) c1 := rfl
      have hthr2 : c2.matching_error < thr := heq ▸ hthr
      rw [h0, mergeOne_not_found_eq thr fc c2 hnone2, if_pos hthr2,
        mergeOne_found_last thr fc c2 c1 hnone hname, if_neg]
      rw [heq]
      exact lt_irrefl _
    exact ⟨e3, e4⟩

/-- Closed instance of C4 (amended): A at 3 beats A at 8 under threshold 10
in both arrival orders within one batch. -/
theorem fusion_order_independent_witness :
    merge 10 [] [⟨"A", 3⟩, ⟨"A", 8⟩] = [] ++ [⟨"A", 3⟩] ∧
    merge 10 [] [⟨"A", 8⟩, ⟨"A", 3⟩] = [] ++ [⟨"A", 3⟩] := by
  have h := (fusion_order_independent 10 [] ⟨"A", 3⟩ ⟨"A", 8⟩ rfl
    (by simp) (by norm_num)).1 (by norm_num)
  exact ⟨h.1, h.2.1⟩

/-- Status-code classifier of `do_visual_servoing.execute` (lines 119-127):
the if/elif chain maps the error codes 0, -1, -2 and -3 of the synchronous
service response to the four declared outcomes; any other error code falls
off the end of the chain, so the Python function returns `None` — modelled
as `none`. -/
def do_visual_servoing_classify (error_code : ℤ) : Option String :=
  if error_code = 0 then some "succeeded"
  else if error_code = -1 then some "failed"
  else if error_code = -2 then some "timeout"
  else if error_code = -3 then some "lost_object"
  else none

/-- The outcome set declared in `do_visual_servoing.__init__` (line 106). -/
def do_visual_servoing_outcomes : List String :=
  ["succeeded", "failed", "timeout", "lost_object"]

/-- C6 (evaluation at the failing input).  `do_visual_servoing.execute` maps
0, -1, -2, -3 to the four declared outcomes, but on any other status code
(for example -4) the if/elif chain falls through and the step returns no
outcome at all (`None`) instead of surfacing an unmapped-code fault; in
particular the return value is then not in the declared outcome set. -/
theorem do_visual_servoing_unmapped_code :
    do_visual_servoing_classify 0 = some "succeeded" ∧
    do_visual_servoing_classify (-1) = some "failed" ∧
    do_visual_servoing_classify (-2) = some "timeout" ∧
    do_visual_servoing_classify (-3) = some "lost_object" ∧
    do_visual_servoing_classify (-4) = none ∧
    ∀ s ∈ do_visual_servoing_outcomes,
      do_visual_servoing_classify (-4) ≠ some s := by decide

/-- Reset of a latched slot: `self.object_list = None` at line 39 of
`find_objects.execute` and `self.cavity = None` at line 152 of
`find_cavities.execute`, executed at the start of a cycle, strictly before
the trigger of that cycle is published. -/
def reset_latch {τ : Type} (prior : Option τ) : Option τ := none

/-- Value of a latched slot when the wait loop of a cycle finishes: the
fresh asynchronous write of the current cycle when one arrived before the
deadline, and otherwise the value the reset left in the slot — never the
latched value `prior` of a previous cycle, because the reset precedes the
trigger. -/
def latched_read {τ : Type} (prior fresh : Option τ) : Option τ :=
  match fresh with
  | some v => some v
  | none => reset_latch prior

@[simp] theorem latched_read_eq {τ : Type} (prior fresh : Option τ) :
    latched_read prior fresh = fresh := by
  cases fresh <;> rfl

/-- An attempt of `find_objects.execute` ends with a usable result exactly
when the latched `object_list` is set and holds a non-empty object list
(lines 59 and 66: `not self.object_list or len(self.object_list.objects)
<= 0`). -/
def goodList {α : Type} : Option (List α) → Bool
  | some (_ :: _) => true
  | _ => false

/-- The retry loop of `find_objects.execute` (lines 38-64).  The list
`attempts` has one element per planned attempt (`range(self.retries)`,
line 38): element `i` is the fresh asynchronous `ObjectList` write of
attempt `i` — `some l` when the detector published a list with objects `l`
before the wait loop exited, `none` otherwise (explicit failure or timeout
with nothing received).  `prior` is the latched `self.object_list` from
before the loop.  Each attempt clears the latch (lines 39-40), publishes
the trigger (line 43), waits, and stops the loop when the latch holds a
non-empty list (line 64).  Returns the number of triggers published and the
final latched `self.object_list`. -/
def find_objects_loop {α : Type} :
    List (Option (List α)) → Option (List α) → ℕ × Option (List α)
  | [], prior => (0, prior)
  | a :: rest, prior =>
    if goodList (latched_read prior a)
    then (1, latched_read prior a)
    else ((find_objects_loop rest (latched_read prior a)).1 + 1,
          (find_objects_loop rest (latched_read prior a)).2)

/-- Observable result of one call of `find_objects.execute`: the number of
triggers published, the returned outcome string, and the final value of the
`userdata.found_objects` slot. -/
structure FOResult (α : Type) where
  triggers : ℕ
  outcome : String
  found_objects : Option (List α)
  deriving DecidableEq, Repr

/-- `find_objects.execute` (lines 36-71): clears the `found_objects` slot at
entry (line 37), runs the retry loop, then either stores the latched list in
the slot and returns `objects_found` (lines 70-71) or leaves the slot `None`
and returns `no_objects_found` (lines 66-68). -/
def find_objects_execute {α : Type}
    (attempts : List (Option (List α))) (prior : Option (List α)) :
    FOResult α :=
  let r := find_objects_loop attempts prior
  if goodList r.2 then ⟨r.1, "objects_found", r.2⟩
  else ⟨r.1, "no_objects_found", none⟩

theorem find_objects_loop_all_bad {α : Type} :
    ∀ (attempts : List (Option (List α))) (prior : Option (List α)),
      attempts ≠ [] → (∀ a ∈ attempts, goodList a = false) →
      (find_objects_loop attempts prior).1 = attempts.length ∧
      goodList (find_objects_loop attempts prior).2 = false
  | [], _, hne, _ => absurd rfl hne
  | a :: rest, prior, _, hbad => by
    have ha : goodList a = false := hbad a (by simp)
    simp only [find_objects_loop, latched_read_eq, ha, Bool.false_eq_true,
      if_false]
    cases rest with
    | nil => simpa [find_objects_loop] using ha
    | cons b rest2 =>
      have ih := find_objects_loop_all_bad (b :: rest2) a (by simp)
        (fun x hx => hbad x (List.mem_cons_of_mem a hx))
      exact ⟨by rw [ih.1]; simp, ih.2⟩

theorem find_objects_loop_first_good {α : Type} :
    ∀ (pre : List (Option (List α))) (g : Option (List α))
      (rest : List (Option (List α))) (prior : Option (List α)),
      (∀ b ∈ pre, goodList b = false) → goodList g = true →
      find_objects_loop (pre ++ g :: rest) prior = (pre.length + 1, g)
  | [], g, rest, prior, _, hg => by
    simp [find_objects_loop, hg]
  | a :: pre2, g, rest, prior, hpre, hg => by
    have ha : goodList a = false := hpre a (by simp)
    have ih := find_objects_loop_first_good pre2 g rest a
      (fun x hx => hpre x (List.mem_cons_of_mem a hx)) hg
    simp only [List.cons_append, find_objects_loop, latched_read_eq, ha,
      Bool.false_eq_true, if_false, List.append_eq]
    rw [ih]
    simp

theorem find_objects_execute_all_bad {α : Type}
    (attempts : List (Option (List α))) (prior : Option (List α))
    (hne : attempts ≠ []) (hbad : ∀ a ∈ attempts, goodList a = false) :
    find_objects_execute attempts prior =
      ⟨attempts.length, "no_objects_found", none⟩ := by
  obtain ⟨h1, h2⟩ := find_objects_loop_all_bad attempts prior hne hbad
  unfold find_objects_execute
  rw [if_neg (by rw [h2]; exact Bool.false_ne_true), h1]

theorem find_objects_execute_first_good {α : Type}
    (pre : List (Option (List α))) (g : Option (List α))
    (rest : List (Option (List α))) (prior : Option (List α))
    (hpre : ∀ b ∈ pre, goodList b = false) (hg : goodList g = true) :
    find_objects_execute (pre ++ g :: rest) prior =
      ⟨pre.length + 1, "objects_found", g⟩ := by
  unfold find_objects_execute
  rw [find_objects_loop_first_good pre g rest prior hpre hg]
  simp [hg]

theorem exists_first_good {α : Type} :
    ∀ attempts : List (Option (List α)),
      ¬ (∀ a ∈ attempts, goodList a = false) →
      ∃ pre g rest, attempts = pre ++ g :: rest ∧
        (∀ b ∈ pre, goodList b = false) ∧ goodList g = true
  | [], h => absurd (by simp) h
  | a :: rest, h => by
    by_cases ha : goodList a = true
    · exact ⟨[], a, rest, rfl, by simp, ha⟩
    · have ha2 : goodList a = false := Bool.eq_false_iff.mpr ha
      have hrest : ¬ (∀ b ∈ rest, goodList b = false) := by
        intro hall
        refine h ?_
        intro b hb
        rcases List.mem_cons.mp hb with rfl | hb2
        · exact ha2
        · exact hall b hb2
      obtain ⟨pre, g, rest2, heq, hpre, hg⟩ := exists_first_good rest hrest
      exact ⟨a :: pre, g, rest2, by rw [heq]; rfl, by
        intro b hb
        rcases List.mem_cons.mp hb with rfl | hb2
        · exact ha2
        · exact hpre b hb2, hg⟩

/-- C5.  Retry Controller bound and early stop (`find_objects.execute`
lines 36-71): with `retries = N` (one planned attempt per element of
`attempts`, `N ≥ 1`), if every attempt ends in failure, timeout, or an empty
object list, then exactly N triggers are published and the step returns
`no_objects_found`; and if the attempts up to position `pre.length` are the
first to yield a non-empty list `g`, the loop stops right there, having
published exactly `pre.length + 1` triggers, and returns `objects_found`. -/
theorem find_objects_retry_bound {α : Type} (N : ℕ)
    (attempts : List (Option (List α))) (prior : Option (List α))
    (hlen : attempts.length = N) (hN : 1 ≤ N) :
    ((∀ a ∈ attempts, goodList a = false) →
        find_objects_execute attempts prior =
          ⟨N, "no_objects_found", none⟩) ∧
    (∀ pre g rest, attempts = pre ++ g :: rest →
        (∀ b ∈ pre, goodList b = false) → goodList g = true →
        find_objects_execute attempts prior =
          ⟨pre.length + 1, "objects_found", g⟩) := by
  constructor
  · intro hbad
    have hne : attempts ≠ [] := by
      intro h0
      rw [h0] at hlen
      simp at hlen
      omega
    rw [find_objects_execute_all_bad attempts prior hne hbad, hlen]
  · intro pre g rest heq hpre hg
    rw [heq]
    exact find_objects_execute_first_good pre g rest prior hpre hg

/-- Closed instance of C5: two all-bad attempts (no message, then an empty
list) give 2 triggers and `no_objects_found`; with a third attempt yielding
`[5]`, the loop stops after that attempt with 3 triggers and
`objects_found`. -/
theorem find_objects_retry_bound_witness :
    find_objects_execute [none, some ([] : List ℕ)] none =
      ⟨2, "no_objects_found", none⟩ ∧
    find_objects_execute [none, some ([] : List ℕ), some [5]] none =
      ⟨3, "objects_found", some [5]⟩ := by
  constructor
  · exact (find_objects_retry_bound 2 [none, some []] none rfl
      (by norm_num)).1 (by decide)
  · exact (find_objects_retry_bound 3 [none, some [], some [5]] none rfl
      (by norm_num)).2 [none, some []] (some [5]) [] rfl (by decide)
      (by decide)

/-- C9.  `find_objects.execute` does not accumulate across invocations
(lines 37 and 66-71): whatever list a previous invocation stored, when the
step returns `no_objects_found` the `found_objects` slot is `none` (the slot
was cleared at entry and never rewritten), and when it returns
`objects_found` the slot holds exactly the non-empty object list of the last
attempt performed — the first good one — replacing, not merging with,
earlier results. -/
theorem find_objects_no_accumulation {α : Type}
    (attempts : List (Option (List α))) (prior : Option (List α))
    (hne : attempts ≠ []) :
    ((find_objects_execute attempts prior).outcome = "no_objects_found" →
        (find_objects_execute attempts prior).found_objects = none) ∧
    ((find_objects_execute attempts prior).outcome = "objects_found" →
        ∃ pre g rest, attempts = pre ++ g :: rest ∧
          (∀ b ∈ pre, goodList b = false) ∧ goodList g = true ∧
          (find_objects_execute attempts prior).found_objects = g ∧
          (find_objects_execute attempts prior).triggers = pre.length + 1) := by
  by_cases hbad : ∀ a ∈ attempts, goodList a = false
  · rw [find_objects_execute_all_bad attempts prior hne hbad]
    constructor
    · intro _
      rfl
    · intro hco
      have hne2 : ("no_objects_found" : String) ≠ "objects_found" := by decide
      exact absurd hco hne2
  · obtain ⟨pre, g, rest, heq, hpre, hg⟩ := exists_first_good attempts hbad
    rw [heq, find_objects_execute_first_good pre g rest prior hpre hg]
    constructor
    · intro hco
      have hne2 : ("objects_found" : String) ≠ "no_objects_found" := by decide
      exact absurd hco hne2
    · intro _
      exact ⟨pre, g, rest, rfl, hpre, hg, rfl, rfl⟩

/-- Closed instance of C9: a previously stored list `[7]` is erased — an
invocation whose attempts all fail leaves the slot `none`. -/
theorem find_objects_no_accumulation_witness :
    (find_objects_execute [none, some ([] : List ℕ)]
      (some [7])).found_objects = none :=
  (find_objects_no_accumulation [none, some []] (some [7])
    (by decide)).1 (by decide)

/-- Observable result of one call of `find_cavities.execute`: the outcome
string, the final `userdata.found_cavities`, and the list of object names
for which the template/trigger pair was published (lines 153-154), in
order. -/
structure FCResult where
  outcome : String
  found : List Cavity
  triggered : List String
  deriving DecidableEq, Repr

/-- The per-subject trigger-await cycles of `find_cavities.execute`
(lines 151-169).  For the cycle of the subject at overall position `i`,
`env i` is the fresh asynchronous cavity write of that cycle: `some cav`
when the cavity message builder answered before the 5-second deadline, and
`none` on timeout.  Each cycle clears the latched `self.cavity` (line 152)
before publishing the subject name and the trigger (lines 153-154); a
received cavity gets its `object_name` overwritten with the subject's name
(line 161) and is appended to `local_found_cavities` (line 162); on
deadline expiry the wait aborts the whole call (line 167), leaving the
remaining subjects untriggered.  Returns `none` on timeout and otherwise
the collected `local_found_cavities`, paired with the names triggered. -/
def find_cavities_cycles (env : ℕ → Option Cavity) :
    List String → ℕ → Option Cavity → Option (List Cavity) × List String
  | [], _, _ => (some [], [])
  | name :: rest, i, latch =>
    match latched_read latch (env i) with
    | none => (none, [name])
    | some cav =>
      ((find_cavities_cycles env rest (i + 1)
          (some { cav with object_name := name })).1.map
        (fun l => { cav with object_name := name } :: l),
       name :: (find_cavities_cycles env rest (i + 1)
          (some { cav with object_name := name })).2)

/-- `find_cavities.execute` (lines 149-195): runs the per-subject cycles; on
a timeout it returns immediately (line 167) with `userdata.found_cavities`
untouched; otherwise it merges the collected cavities into
`userdata.found_cavities` (lines 179-190) and classifies by comparing the
entry count with the number of selected objects (lines 192-195).  The tf
block (lines 171-177) only rewrites poses and is omitted.  `latch` is the
latched `self.cavity` from before the call. -/
def find_cavities_execute (thr : ℚ) (env : ℕ → Option Cavity)
    (selected : List String) (found_cavities : List Cavity)
    (latch : Option Cavity) : FCResult :=
  match find_cavities_cycles env selected 0 latch with
  | (none, trig) => ⟨"timeout", found_cavities, trig⟩
  | (some localFound, trig) =>
    let fc := merge thr found_cavities localFound
    ⟨if fc.length = selected.length then "succeeded"
      else "not_all_cavities_found", fc, trig⟩

theorem find_cavities_cycles_no_timeout (env : ℕ → Option Cavity) :
    ∀ (selected : List String) (i : ℕ) (latch : Option Cavity),
      (∀ j, j < selected.length → (env (i + j)).isSome = true) →
      ∃ localFound : List Cavity,
        find_cavities_cycles env selected i latch =
          (some localFound, selected)
  | [], _, _, _ => ⟨[], rfl⟩
  | name :: rest, i, latch, hresp => by
    have h0 : (env (i + 0)).isSome = true := hresp 0 (by simp)
    rw [Nat.add_zero] at h0
    obtain ⟨cav, hcav⟩ := Option.isSome_iff_exists.mp h0
    have hrest : ∀ j, j < rest.length → (env (i + 1 + j)).isSome = true := by
      intro j hj
      have := hresp (j + 1) (by simpa using Nat.succ_lt_succ hj)
      rwa [show i + (j + 1) = i + 1 + j by omega] at this
    obtain ⟨localRest, hrec⟩ := find_cavities_cycles_no_timeout env rest (i + 1)
      (some { cav with object_name := name }) hrest
    refine ⟨{ cav with object_name := name } :: localRest, ?_⟩
    simp [find_cavities_cycles, latched_read_eq, hcav, hrec]

/-- C7.  Required-count classification (`find_cavities.execute`
lines 192-195): when no per-subject cycle times out, the step returns
`succeeded` exactly when the number of entries in `found_cavities` after the
merge equals the number of selected objects, and returns
`not_all_cavities_found` whenever the two counts differ. -/
theorem find_cavities_required_count (thr : ℚ) (env : ℕ → Option Cavity)
    (selected : List String) (found_cavities : List Cavity)
    (latch : Option Cavity)
    (hresp : ∀ j, j < selected.length → (env j).isSome = true) :
    ((find_cavities_execute thr env selected found_cavities latch).outcome =
        "succeeded" ↔
      (find_cavities_execute thr env selected found_cavities
          latch).found.length = selected.length) ∧
    ((find_cavities_execute thr env selected found_cavities
        latch).found.length ≠ selected.length →
      (find_cavities_execute thr env selected found_cavities latch).outcome =
        "not_all_cavities_found") := by
  have hresp0 : ∀ j, j < selected.length → (env (0 + j)).isSome = true := by
    intro j hj
    rw [Nat.zero_add]
    exact hresp j hj
  obtain ⟨localFound, hcyc⟩ :=
    find_cavities_cycles_no_timeout env selected 0 latch hresp0
  unfold find_cavities_execute
  rw [hcyc]
  by_cases hlen :
      (merge thr found_cavities localFound).length = selected.length
  · simp [hlen]
  · have hne2 : ("not_all_cavities_found" : String) ≠ "succeeded" := by decide
    simp only [if_neg hlen]
    exact ⟨⟨fun hco => absurd hco hne2, fun hco => absurd hco hlen⟩,
      fun _ => trivial⟩

/-- Closed instance of C7 at the spec's scenario: 3 required subjects, but
the cavity of the third scores 20 (at or above threshold 10) and is
rejected by the merge, so only 2 entries remain and the outcome is
`not_all_cavities_found`. -/
theorem find_cavities_required_count_witness :
    (find_cavities_execute 10
      (fun j => some ⟨"x", if j = 2 then 20 else 3⟩)
      ["A", "B", "C"] [] none).outcome = "not_all_cavities_found" :=
  (find_cavities_required_count 10
    (fun j => some ⟨"x", if j = 2 then 20 else 3⟩)
    ["A", "B", "C"] [] none (by decide)).2 (by decide)

theorem find_cavities_cycles_timeout (env : ℕ → Option Cavity) :
    ∀ (selected : List String) (i : ℕ) (latch : Option Cavity) (k : ℕ),
      k < selected.length → env (i + k) = none →
      (∀ j, j < k → (env (i + j)).isSome = true) →
      find_cavities_cycles env selected i latch =
        (none, selected.take (k + 1))
  | [], _, _, k, hk, _, _ => absurd hk (by simp)
  | name :: rest, i, latch, 0, _, htime, _ => by
    rw [Nat.add_zero] at htime
    simp [find_cavities_cycles, latched_read_eq, htime]
  | name :: rest, i, latch, k + 1, hk, htime, hbefore => by
    have h0 : (env (i + 0)).isSome = true := hbefore 0 (by omega)
    rw [Nat.add_zero] at h0
    obtain ⟨cav, hcav⟩ := Option.isSome_iff_exists.mp h0
    have htime2 : env (i + 1 + k) = none := by
      rwa [show i + 1 + k = i + (k + 1) by omega]
    have hbefore2 : ∀ j, j < k → (env (i + 1 + j)).isSome = true := by
      intro j hj
      have := hbefore (j + 1) (by omega)
      rwa [show i + (j + 1) = i + 1 + j by omega] at this
    have hrec := find_cavities_cycles_timeout env rest (i + 1)
      (some { cav with object_name := name }) k (by simpa using hk) htime2
      hbefore2
    simp only [find_cavities_cycles, latched_read_eq, hcav, hrec]
    simp

/-- C10.  Timeout atomicity of `find_cavities.execute` (lines 156-169): if
the cycle of the subject at position `k` exceeds its deadline and every
earlier cycle received a cavity, the step returns `timeout` immediately:
`userdata.found_cavities` is exactly as it was at entry (the cavities
already received in this invocation are discarded without being merged) and
only the first `k + 1` subjects were ever triggered. -/
theorem find_cavities_timeout_atomic (thr : ℚ) (env : ℕ → Option Cavity)
    (selected : List String) (found_cavities : List Cavity)
    (latch : Option Cavity) (k : ℕ)
    (hk : k < selected.length) (htime : env k = none)
    (hbefore : ∀ j, j < k → (env j).isSome = true) :
    find_cavities_execute thr env selected found_cavities latch =
      ⟨"timeout", found_cavities, selected.take (k + 1)⟩ := by
  have htime0 : env (0 + k) = none := by rwa [Nat.zero_add]
  have hbefore0 : ∀ j, j < k → (env (0 + j)).isSome = true := by
    intro j hj
    rw [Nat.zero_add]
    exact hbefore j hj
  have hcyc := find_cavities_cycles_timeout env selected 0 latch k hk htime0
    hbefore0
  unfold find_cavities_execute
  rw [hcyc]

/-- Closed instance of C10: the second of three subjects times out; the
entry A at 3 received in the same invocation is discarded, the prior result
set `[Z at 5]` is returned untouched, and subject "C" is never triggered. -/
theorem find_cavities_timeout_atomic_witness :
    find_cavities_execute 10
      (fun j => if j = 0 then some ⟨"x", 3⟩ else none)
      ["A", "B", "C"] [⟨"Z", 5⟩] none =
      ⟨"timeout", [⟨"Z", 5⟩], ["A", "B"]⟩ :=
  find_cavities_timeout_atomic 10
    (fun j => if j = 0 then some ⟨"x", 3⟩ else none)
    ["A", "B", "C"] [⟨"Z", 5⟩] none 1 (by decide) (by decide) (by decide)

theorem find_cavities_cycles_latch_irrelevant (env : ℕ → Option Cavity) :
    ∀ (selected : List String) (i : ℕ) (l1 l2 : Option Cavity),
      find_cavities_cycles env selected i l1 =
        find_cavities_cycles env selected i l2
  | [], _, _, _ => rfl
  | name :: rest, i, l1, l2 => by
    simp only [find_cavities_cycles, latched_read_eq]

/-- C8.  Reset-before-trigger ordering: in `find_objects.execute` the latched
`object_list` and event state are cleared (lines 39-40) strictly before the
trigger is published (line 43), and in `find_cavities.execute` the latched
`cavity` is cleared (line 152) strictly before the two publishes
(lines 153-154); consequently a value latched before the cycle is never read
as a fresh result — the observable behaviour of either step is independent
of whatever the latch held at entry (for `find_objects` as soon as at least
one attempt runs; with zero attempts the final check at line 66 would reread
the stale latch). -/
theorem reset_before_trigger :
    (∀ (α : Type) (attempts : List (Option (List α)))
        (p1 p2 : Option (List α)), attempts ≠ [] →
        find_objects_execute attempts p1 = find_objects_execute attempts p2) ∧
    (∀ (thr : ℚ) (env : ℕ → Option Cavity) (selected : List String)
        (fc : List Cavity) (l1 l2 : Option Cavity),
        find_cavities_execute thr env selected fc l1 =
          find_cavities_execute thr env selected fc l2) := by
  constructor
  · intro α attempts p1 p2 hne
    cases attempts with
    | nil => exact absurd rfl hne
    | cons a rest =>
      unfold find_objects_execute
      have hq : find_objects_loop (a :: rest) p1 =
          find_objects_loop (a :: rest) p2 := by
        simp only [find_objects_loop, latched_read_eq]
      rw [hq]
  · intro thr env selected fc l1 l2
    unfold find_cavities_execute
    rw [find_cavities_cycles_latch_irrelevant env selected 0 l1 l2]

/-- Closed instance of C8: a stale latched object list `[3]` and a stale
latched cavity Z at 1 do not change the outcome of a cycle in which the
fresh environment delivers nothing. -/
theorem reset_before_trigger_witness :
    find_objects_execute [none] (some [(3 : ℕ)]) =
      find_objects_execute [none] none ∧
    find_cavities_execute 10 (fun _ => none) ["A"] [] (some ⟨"Z", 1⟩) =
      find_cavities_execute 10 (fun _ => none) ["A"] [] none :=
  ⟨reset_before_trigger.1 ℕ [none] (some [3]) none (by decide),
   reset_before_trigger.2 10 (fun _ => none) ["A"] [] (some ⟨"Z", 1⟩) none⟩

end PerceptionStates
